import Mathlib

/-!
A formal model of the preoomkiller-controller reconciliation engine.

The Go sources are shallowly embedded: pure helpers become Lean functions,
quantities of bytes are exact rationals, instants and durations are integers
(nanoseconds), repository calls and other effectful collaborators are passed
in as explicit inputs, and the effects the engine issues (evictions, patches,
timer registrations, counter increments, warning logs) are returned as
explicit event lists.  Go float64 arithmetic is modelled exactly: a rational
is rounded to the nearest representable IEEE-754 double (round to nearest,
ties to even, with gradual underflow), and every float operation rounds its
exact rational result.

Rational arithmetic inside executable definitions is written with
`Rat.divInt` and the `num`/`den` projections (the `q*` kit below) so that
every definition evaluates by kernel reduction (`decide`); the kit is proved
equal to the ordinary field operations on `ℚ`.
-/

namespace Preoom

/-! ## Kernel-computable rational arithmetic kit -/

/-- The integer `2 ^ k`, via the kernel-accelerated shift. -/
def pow2Int (k : ℕ) : ℤ := ((Nat.shiftLeft 1 k : ℕ) : ℤ)

/-- Exact product of two rationals. -/
def qmul (a b : ℚ) : ℚ := Rat.divInt (a.num * b.num) ((a.den : ℤ) * b.den)

/-- Exact quotient of two rationals. -/
def qdiv (a b : ℚ) : ℚ := Rat.divInt (a.num * b.den) ((a.den : ℤ) * b.num)

/-- Exact difference of two rationals. -/
def qsub (a b : ℚ) : ℚ :=
  Rat.divInt (a.num * b.den - b.num * a.den) ((a.den : ℤ) * b.den)

/-- Negation of a rational. -/
def qneg (a : ℚ) : ℚ := Rat.divInt (-a.num) a.den

/-- Absolute value of a rational. -/
def qabs (a : ℚ) : ℚ := Rat.divInt (a.num.natAbs : ℤ) (a.den : ℤ)

/-- Floor of a rational as an integer. -/
def floorQ (q : ℚ) : ℤ := q.num.fdiv q.den

/-- An integer as a rational. -/
def intQ (n : ℤ) : ℚ := Rat.divInt n 1

/-- The rational `m * 2 ^ k`, for an integer scale `k`. -/
def scaleByPow2 (m : ℤ) (k : ℤ) : ℚ :=
  if 0 ≤ k then Rat.divInt (m * pow2Int k.toNat) 1
  else Rat.divInt m (pow2Int (-k).toNat)


/-! ## Exact model of IEEE-754 double-precision values

A double is represented by the exact rational it denotes.  `floatRound`
rounds an arbitrary rational to the nearest double (53-bit significand,
round to nearest, ties to even, gradual underflow below `2 ^ (-1022)`).
Overflow beyond the largest finite double cannot occur in the engine's
computations and is guarded where it matters (`parseFloatGo`). -/

/-- The rational `2 ^ e`, for an integer exponent. -/
def pow2Q (e : ℤ) : ℚ := scaleByPow2 1 e

/-- Number of bits of a natural number (`0` for `0`), fuel-driven so that it
reduces by kernel computation. -/
def bitlenAux : ℕ → ℕ → ℕ
  | 0, _ => 0
  | fuel + 1, n => if n = 0 then 0 else bitlenAux fuel (n / 2) + 1

/-- Number of bits of a natural number below `2 ^ 8192`. -/
def bitlen (n : ℕ) : ℕ := bitlenAux 8192 n

/-- Round a rational to the nearest integer, ties to even. -/
def roundTiesEven (y : ℚ) : ℤ :=
  let f := floorQ y
  let r := qsub y (intQ f)
  if r < Rat.divInt 1 2 then f
  else if Rat.divInt 1 2 < r then f + 1
  else if f % 2 = 0 then f else f + 1

/-- For `0 < a`, the unique `e` with `2 ^ e ≤ a < 2 ^ (e + 1)`. -/
def exp2Floor (a : ℚ) : ℤ :=
  let d : ℤ := (bitlen a.num.natAbs : ℤ) - (bitlen a.den : ℤ)
  if pow2Q d ≤ a then d else d - 1

/-- Round a positive rational to the nearest double: normal numbers keep a
53-bit significand; below `2 ^ (-1022)` the result is the nearest multiple
of `2 ^ (-1074)`, modelling gradual underflow. -/
def floatRoundPos (a : ℚ) : ℚ :=
  if a < pow2Q (-1022) then
    scaleByPow2 (roundTiesEven (qmul a (pow2Q 1074))) (-1074)
  else
    scaleByPow2 (roundTiesEven (qmul a (pow2Q (52 - exp2Floor a))))
      (exp2Floor a - 52)

/-- Round a rational to the nearest double. -/
def floatRound (x : ℚ) : ℚ :=
  if x = 0 then 0
  else if 0 < x then floatRoundPos x
  else qneg (floatRoundPos (qneg x))

/-- IEEE double multiplication: the exact product, correctly rounded. -/
def fmul (x y : ℚ) : ℚ := floatRound (qmul x y)

/-- IEEE double division: the exact quotient, correctly rounded. -/
def fdiv (x y : ℚ) : ℚ := floatRound (qdiv x y)

/-- Go conversion `int64(f)`: truncation toward zero. -/
def truncToInt (x : ℚ) : ℤ := if 0 ≤ x then floorQ x else -floorQ (qneg x)

/-! ## Go string helpers used by the threshold resolver -/

/-- Whether a character is one of the ASCII spaces trimmed by Go
`strings.TrimSpace` (space, tab, newline, vertical tab, form feed, carriage
return; the rare non-ASCII Unicode spaces are not modelled). -/
def isGoSpace (c : Char) : Bool :=
  c.toNat = 32 || c.toNat = 9 || c.toNat = 10 || c.toNat = 11 ||
    c.toNat = 12 || c.toNat = 13

/-- Go `strings.TrimSpace` (ASCII fragment). -/
def trimSpace (s : String) : String :=
  ⟨((s.data.dropWhile isGoSpace).reverse.dropWhile isGoSpace).reverse⟩

/-- Go `strings.CutSuffix`: the string without the suffix, and whether the
suffix was present. -/
def cutSuffix (s suff : String) : String × Bool :=
  if suff.data.isSuffixOf s.data then
    (⟨s.data.take (s.data.length - suff.data.length)⟩, true)
  else (s, false)

/-! ## Model of Go `strconv.ParseFloat` on decimal input -/

/-- Whether a character is an ASCII digit. -/
def isDigitCh (c : Char) : Bool := 48 ≤ c.toNat && c.toNat ≤ 57

/-- Value of a list of ASCII digits, most significant first. -/
def digitsVal (ds : List Char) : ℕ :=
  ds.foldl (fun a c => 10 * a + (c.toNat - 48)) 0

/-- Split a character list at the first character satisfying `p`: the part
before it, and (when found) the part after it. -/
def splitAtCh (p : Char → Bool) : List Char → List Char × Option (List Char)
  | [] => ([], none)
  | c :: r =>
    if p c then ([], some r)
    else
      let t := splitAtCh p r
      (c :: t.1, t.2)

/-- Consume a leading sign; `true` means negative. -/
def parseSign : List Char → Bool × List Char
  | '-' :: r => (true, r)
  | '+' :: r => (false, r)
  | r => (false, r)

/-- Exact rational value of a decimal string of the form
`[+-] digits [. digits] [(e|E) [+-] digits]` with at least one mantissa
digit: the decimal grammar accepted by Go `strconv.ParseFloat`
(hexadecimal floats, `inf`/`nan` forms and digit-separating underscores
are outside this fragment). -/
def parseDecQ (s : String) : Option ℚ :=
  let sr := parseSign s.data
  let me := splitAtCh (fun c => c = 'e' || c = 'E') sr.2
  let ifp := splitAtCh (fun c => c = '.') me.1
  let ip := ifp.1
  let fp := (ifp.2).getD []
  if ip.all isDigitCh ∧ fp.all isDigitCh ∧ (ip ≠ [] ∨ fp ≠ []) then
    let base : ℚ :=
      Rat.divInt (digitsVal (ip ++ fp) : ℤ) ((10 ^ fp.length : ℕ) : ℤ)
    let signed := if sr.1 then qneg base else base
    match me.2 with
    | none => some signed
    | some es =>
      let er := parseSign es
      if er.2 ≠ [] ∧ er.2.all isDigitCh then
        let tenPow : ℚ := Rat.divInt ((10 ^ digitsVal er.2 : ℕ) : ℤ) 1
        some (if er.1 then qdiv signed tenPow else qmul signed tenPow)
      else none
  else none

/-- Go `strconv.ParseFloat(s, 64)` on the decimal fragment: the exact value,
correctly rounded to a double.  `none` models every case in which the call
returns a non-nil error: a syntax error, overflow to infinity (`ErrRange`),
or underflow to zero (`ErrRange`). -/
def parseFloatGo (s : String) : Option ℚ :=
  match parseDecQ s with
  | none => none
  | some v =>
    if qsub (pow2Q 1024) (pow2Q 970) ≤ qabs v then none
    else if v ≠ 0 ∧ qabs v ≤ pow2Q (-1075) then none
    else some (floatRound v)

/-- Whether every character of `s` belongs to the decimal-number alphabet
(digits, signs, dot, `e`, `E`).  On such strings Go `strconv.ParseFloat`
succeeds exactly on the decimal grammar modelled by `parseDecQ`. -/
def decAlphabet (s : String) : Bool :=
  s.data.all (fun c => isDigitCh c || c = '+' || c = '-' || c = '.' ||
    c = 'e' || c = 'E')

/-! ## Go errors and their classification

A Go error produced by the k8s adapter is modelled by its `errors.Unwrap`
chain, outermost wrapper first.  `errors.As` with a target interface
succeeds when some element of the chain implements the interface, which is
what the marker checks below compute. -/

/-- One node of an error chain: the adapter's `PodNotFoundError` (implements
`IsNotFound`), its `TooManyRequestsError` (implements `IsTooManyRequests`),
or any other error with its message. -/
inductive ErrNode
  | podNotFound
  | tooManyRequestsErr
  | stdErr (msg : String)
deriving DecidableEq, Repr

/-- A Go error as its unwrap chain, outermost first. -/
abbrev GoErr := List ErrNode

/-- Go `errors.As(err, &target)` for the `notFound` marker interface. -/
def isNotFoundErr (e : GoErr) : Bool :=
  e.any fun n => match n with | .podNotFound => true | _ => false

/-- Go `errors.As(err, &target)` for the `tooManyRequests` marker interface. -/
def isTooManyRequestsErr (e : GoErr) : Bool :=
  e.any fun n => match n with | .tooManyRequestsErr => true | _ => false

/-! ## Domain data (`internal/logic/controller/dto.go`) -/

/-- A pod in the domain layer.  `memoryLimit` is the sum of all container
memory limits, `none` when no container sets a limit; `createdAt` is the
creation timestamp (Unix nanoseconds). -/
structure Pod where
  name : String
  ns : String
  annots : List (String × String)
  memoryLimit : Option ℚ
  createdAt : ℤ
deriving DecidableEq, Repr

/-- Pod metrics in the domain layer (`PodMetrics`). -/
structure PodMetrics where
  memoryUsage : Option ℚ
deriving DecidableEq, Repr

/-- Go map read `pod.Annotations[key]` with its `ok` flag: the first binding
of the key, if any. -/
def lookupAnnot (m : List (String × String)) (k : String) : Option String :=
  (m.find? fun p => p.1 = k).map (fun p => p.2)

/-- The annotation keys the service is configured with
(`internal/logic/controller/constants.go` holds the defaults). -/
structure Keys where
  thresholdKey : String
  scheduleKey : String
  tzKey : String
  restartAtKey : String
deriving DecidableEq, Repr

/-- The default key set from `constants.go`. -/
def defaultKeys : Keys :=
  { thresholdKey := "preoomkiller.beta.k8s.skillcoder.com/memory-threshold"
    scheduleKey := "preoomkiller.beta.k8s.skillcoder.com/restart-schedule"
    tzKey := "preoomkiller.beta.k8s.skillcoder.com/tz"
    restartAtKey := "preoomkiller.beta.k8s.skillcoder.com/restart-at" }

/-! ## Memory threshold resolution (`service.go`, `resolveMemoryThreshold`
and `resolveMemoryThresholdFromPercent`) -/

/-- The two sentinel errors of the resolver:
`ErrMemoryThresholdParse` and `ErrMemoryLimitNotDefined`. -/
inductive ThresholdErr
  | memoryThresholdParse
  | memoryLimitNotDefined
deriving DecidableEq, Repr

/-- Source `resolveMemoryThresholdFromPercent`: interpret `percentStr` as a
percentage of the memory limit.  `strconv.ParseFloat` is modelled by
`parseFloatGo`; the final value is
`int64(limitFloat * (percent / 100))` computed in float64, where
`limitFloat` is `memoryLimit.AsApproximateFloat64()`. -/
def resolveMemoryThresholdFromPercent (percentStr : String)
    (memoryLimit : Option ℚ) : Except ThresholdErr ℤ :=
  match parseFloatGo percentStr with
  | none => .error .memoryThresholdParse
  | some percent =>
    if percent ≤ 0 ∨ 100 < percent then .error .memoryThresholdParse
    else
      match memoryLimit with
      | none => .error .memoryLimitNotDefined
      | some limit =>
        if limit = 0 then .error .memoryLimitNotDefined
        else
          let limitFloat := floatRound limit
          let thresholdFloat := fmul limitFloat (fdiv percent 100)
          .ok (truncToInt thresholdFloat)

/-- Source `resolveMemoryThreshold`: the effective threshold from the pod
annotation, either an absolute quantity or a percentage of the memory
limit.  `pq` models the third-party `resource.ParseQuantity`: the exact
byte value of a quantity string, or `none` on a parse error. -/
def resolveMemoryThreshold (pq : String → Option ℚ) (keys : Keys)
    (pod : Pod) : Except ThresholdErr ℚ :=
  match lookupAnnot pod.annots keys.thresholdKey with
  | none => .error .memoryThresholdParse
  | some memoryThresholdStr =>
    let cut := cutSuffix memoryThresholdStr "%"
    if cut.2 then
      (resolveMemoryThresholdFromPercent (trimSpace cut.1)
        pod.memoryLimit).map (fun n => (intQ n))
    else
      match pq memoryThresholdStr with
      | none => .error .memoryThresholdParse
      | some q => .ok q

/-! ## Metrics fetch (`service.go`, `getPodMemoryUsageOrSkip`) -/

/-- The result triple of `getPodMemoryUsageOrSkip`: the usage (the zero
quantity when skipped or failed), the skip flag, whether the wrapped
`ErrGetPodMetrics` error is returned, and the warnings logged on the way
(message texts from the source). -/
structure MemUsageRes where
  usage : ℚ
  skip : Bool
  errOut : Bool
  warns : List String
deriving DecidableEq, Repr

/-- Source `getPodMemoryUsageOrSkip`: fetch pod metrics; skip on a not-found
repository error, on absent memory usage, and on zero memory usage; fail on
any other repository error.  `mr` is the repository's
`GetPodMetricsQuery` response. -/
def getPodMemoryUsageOrSkip (mr : Except GoErr PodMetrics) : MemUsageRes :=
  match mr with
  | .error e =>
    if isNotFoundErr e then ⟨0, true, false, ["pod metrics not found, skipping"]⟩
    else ⟨0, false, true, []⟩
  | .ok podMetrics =>
    match podMetrics.memoryUsage with
    | none => ⟨0, true, false, ["pod memory usage is nil, skipping"]⟩
    | some u =>
      if u = 0 then ⟨0, true, false, ["pod memory usage is zero, skipping"]⟩
      else ⟨u, false, false, []⟩

/-! ## Eviction entry point (`service.go`, `evictPodCommand`) -/

/-- The result pair of `evictPodCommand`: the `ok` flag and the returned
error (`some e` is the chain `ErrEvictPod: e`). -/
structure EvictCmdRes where
  ok : Bool
  errOut : Option GoErr
deriving DecidableEq, Repr

/-- Source `evictPodCommand`: call the repository eviction and classify its error.
A not-found error means the pod is already gone (`false, nil`); a
too-many-requests error means retry on the next reconcile (`false, nil`);
any other error is wrapped in `ErrEvictPod` and surfaced; success is
`(true, nil)`.  `er` is the repository's `EvictPodCommand` error, `none`
on success. -/
def evictPodCommand (er : Option GoErr) : EvictCmdRes :=
  match er with
  | none => ⟨true, none⟩
  | some e =>
    if isNotFoundErr e then ⟨false, none⟩
    else if isTooManyRequestsErr e then ⟨false, none⟩
    else ⟨false, some (.stdErr "evict pod" :: e)⟩

/-! ## Threshold handler (`service.go`, `processPod`) -/

/-- The errors `processPod` can return, by their sentinel. -/
inductive CtrlErr
  | thresholdParse
  | getPodMetrics
  | evictPod (cause : GoErr)
deriving DecidableEq, Repr

/-- The result of `processPod`: whether the eviction facade was invoked,
the returned `evicted` flag, and the returned error. -/
structure ProcessPodRes where
  evictCalled : Bool
  evicted : Bool
  errOut : Option CtrlErr
deriving DecidableEq, Repr

/-- Source `processPod`: resolve the threshold from the annotation (skipping
silently on the no-limit-for-percent sentinel and on a zero threshold),
fetch the memory usage (honoring its skip outcomes), and call the eviction
facade exactly when `usage > threshold` strictly. -/
def processPod (pq : String → Option ℚ) (keys : Keys) (pod : Pod)
    (mr : Except GoErr PodMetrics) (er : Option GoErr) : ProcessPodRes :=
  match resolveMemoryThreshold pq keys pod with
  | .error .memoryLimitNotDefined => ⟨false, false, none⟩
  | .error .memoryThresholdParse => ⟨false, false, some .thresholdParse⟩
  | .ok podMemoryThreshold =>
    if podMemoryThreshold = 0 then ⟨false, false, none⟩
    else
      let m := getPodMemoryUsageOrSkip mr
      if m.skip then ⟨false, false, none⟩
      else if m.errOut then ⟨false, false, some .getPodMetrics⟩
      else if podMemoryThreshold < m.usage then
        let e := evictPodCommand er
        match e.errOut with
        | some cause => ⟨true, false, some (.evictPod cause)⟩
        | none => ⟨true, e.ok, none⟩
      else ⟨false, false, none⟩

/-! ## K8s adapter (`internal/adapters/outbound/k8s`) -/

/-- The adapter's view of a cluster API response, as classified by the
`apierrors` predicates. -/
inductive ApiRes
  | ok
  | apiNotFound
  | apiTooMany
  | apiErr (msg : String)
deriving DecidableEq, Repr

/-- Source `EvictPodCommand` of the adapter: map the API error to the domain error
chain (`fmt.Errorf("evict pod: %w", ...)` around the marker sentinels). -/
def adapterEvictErr : ApiRes → Option GoErr
  | .ok => none
  | .apiTooMany => some [.stdErr "evict pod", .tooManyRequestsErr]
  | .apiNotFound => some [.stdErr "evict pod", .podNotFound]
  | .apiErr msg => some [.stdErr "evict pod", .stdErr msg]

/-- Source `toDomainPodMetrics` (`errors.go` of the adapter): aggregate container
memory usages, starting from a zero quantity and skipping containers whose
usage is nil; the result's `MemoryUsage` is always present. -/
def toDomainPodMetrics (containers : List (Option ℚ)) : PodMetrics :=
  { memoryUsage :=
      some (containers.foldl
        (fun acc c => match c with | none => acc | some u => acc + u) 0) }

/-- The metrics API response consumed by `GetPodMetricsQuery`: the
per-container memory usages on success, or the classified API error. -/
inductive MetricsApiRes
  | ok (containers : List (Option ℚ))
  | apiNotFound
  | apiTooMany
  | apiErr (msg : String)
deriving DecidableEq, Repr

/-- Source `GetPodMetricsQuery` of the adapter: wrap API errors
(`fmt.Errorf("get pod metrics: %w", ...)`), convert success with
`toDomainPodMetrics`. -/
def getPodMetricsQuery : MetricsApiRes → Except GoErr PodMetrics
  | .ok cs => .ok (toDomainPodMetrics cs)
  | .apiNotFound => .error [.stdErr "get pod metrics", .podNotFound]
  | .apiTooMany => .error [.stdErr "get pod metrics", .tooManyRequestsErr]
  | .apiErr m => .error [.stdErr "get pod metrics", .stdErr m]

/-- Source `SetAnnotationCommand` of the adapter: the `metadata.annotations` map of
the merge-patch document it sends.  A single key is patched; an empty value
patches the key to JSON null, which removes the annotation. -/
def setAnnotationPatch (key value : String) : List (String × Option String) :=
  [(key, if value = "" then none else some value)]

/-! ## Cron evaluator (`internal/infra/cronparser`) -/

/-- The check `strings.HasPrefix(spec, "CRON_TZ=") || strings.HasPrefix(spec, "TZ=")`
from `buildSpec`. -/
def hasInlineTZ (spec : String) : Bool :=
  "CRON_TZ=".data.isPrefixOf spec.data || "TZ=".data.isPrefixOf spec.data

/-- Source `buildSpec`: prepend `CRON_TZ=<tz>` when `tz` is given and the spec has
no inline zone prefix; default to `CRON_TZ=UTC` when neither is present. -/
def buildSpec (spec tz : String) : String :=
  if tz ≠ "" ∧ ¬hasInlineTZ spec then "CRON_TZ=" ++ tz ++ " " ++ spec
  else if ¬hasInlineTZ spec then "CRON_TZ=UTC " ++ spec
  else spec

/-- The third-party go-cron library, abstracted: `parse` compiles a full
spec (possibly carrying a `CRON_TZ=` prefix) or fails on a malformed spec
or unknown zone, and `next` gives a schedule's next activation instant
after a given instant.  Its documented contract, `∀ sch t, t < next sch t`,
is assumed where a theorem needs it. -/
structure CronLib (S : Type) where
  parse : String → Except String S
  next : S → ℤ → ℤ

/-- Source `NextAfter` of the cron parser: build the full spec, compile it with
the library, and evaluate the schedule's next occurrence after `after`. -/
def nextAfter {S : Type} (lib : CronLib S) (spec tz : String) (after : ℤ) :
    Except String ℤ :=
  match lib.parse (buildSpec spec tz) with
  | .error e => .error e
  | .ok schedule => .ok (lib.next schedule after)

/-! ## Scheduled-restart handler (`service.go`, `handleExistingRestartAt`
and `processScheduledRestart`)

The handler's collaborators are passed explicitly: `parseRFC` and `fmtRFC`
stand for the standard library's RFC3339 `time.Parse` / `Format`, `next`
for the schedule parser's `NextAfter`, `patchOk` for the outcome of the
repository's `SetAnnotationCommand`, `evictRes` for the repository error of
`EvictPodCommand`, and `now` for `time.Now()` during the pass. -/

/-- Environment of one scheduled-restart handling step. -/
structure SchedEnv where
  parseRFC : String → Option ℤ
  fmtRFC : ℤ → String
  next : String → String → ℤ → Except String ℤ
  patchOk : Bool
  evictRes : Option GoErr
  now : ℤ

/-- Result of `handleExistingRestartAt`: the returned flag (`true` stops the
caller), the eviction facade invocations `(namespace, name)`, the timer
registrations requested via `scheduleEviction` `(namespace, name, at)`, and
the warnings logged. -/
structure HandleRes where
  handled : Bool
  evicts : List (String × String)
  arms : List (String × String × ℤ)
  warns : List String
deriving DecidableEq, Repr

/-- Source `handleExistingRestartAt`: classify an existing `restart-at` annotation.
Unparseable → fall through (`false`).  In the future → re-arm the timer and
stop.  Passed, and the pod existed before the scheduled time (missed) →
evict now and stop.  Passed, and the pod was created at or after the
scheduled time (stale) → warn and fall through to recompute. -/
def handleExistingRestartAt (env : SchedEnv) (pod : Pod)
    (restartAtStr : String) : HandleRes :=
  match env.parseRFC restartAtStr with
  | none => ⟨false, [], [], ["invalid restart-at annotation"]⟩
  | some restartAt =>
    if env.now < restartAt then
      ⟨true, [], [(pod.ns, pod.name, restartAt)], []⟩
    else if pod.createdAt < restartAt then
      ⟨true, [(pod.ns, pod.name)], [], []⟩
    else
      ⟨false, [], [], ["stale restart-at annotation, rescheduling"]⟩

/-- The effects issued while processing one pod (or one pass): eviction
facade invocations `(namespace, name)`, annotation patches
`(namespace, name, key, value)`, timer registrations requested via
`scheduleEviction` `(namespace, name, at)`, and log lines. -/
structure Effects where
  evicts : List (String × String)
  patches : List (String × String × String × String)
  arms : List (String × String × ℤ)
  logs : List String
deriving DecidableEq, Repr

/-- The empty effect set. -/
def noEffects : Effects := ⟨[], [], [], []⟩

/-- Concatenation of effect sets, in order. -/
def Effects.append (a b : Effects) : Effects :=
  ⟨a.evicts ++ b.evicts, a.patches ++ b.patches, a.arms ++ b.arms,
    a.logs ++ b.logs⟩

/-- The recompute tail of `processScheduledRestart`: evaluate
`NextAfter(spec, tz, now)` (warn and stop on error), patch the pod with the
formatted next run via `SetAnnotationCommand` (log and stop on patch
failure), then request the timer registration. -/
def recomputeRestartAt (env : SchedEnv) (keys : Keys) (pod : Pod)
    (acc : Effects) : Effects :=
  let spec := (lookupAnnot pod.annots keys.scheduleKey).getD ""
  let tz := (lookupAnnot pod.annots keys.tzKey).getD ""
  match env.next spec tz env.now with
  | .error _ => { acc with logs := acc.logs ++ ["invalid restart schedule"] }
  | .ok nextRun =>
    let patch := (pod.ns, pod.name, keys.restartAtKey, env.fmtRFC nextRun)
    if env.patchOk then
      { acc with
        patches := acc.patches ++ [patch]
        arms := acc.arms ++ [(pod.ns, pod.name, nextRun)] }
    else
      { acc with
        patches := acc.patches ++ [patch]
        logs := acc.logs ++ ["set restart-at annotation"] }

/-- Source `processScheduledRestart`: consult `handleExistingRestartAt` when a
`restart-at` annotation is present and stop if it handled the pod;
otherwise recompute the next run and arm it. -/
def processScheduledRestart (env : SchedEnv) (keys : Keys) (pod : Pod) :
    Effects :=
  match lookupAnnot pod.annots keys.restartAtKey with
  | some restartAtStr =>
    let h := handleExistingRestartAt env pod restartAtStr
    if h.handled then ⟨h.evicts, [], h.arms, h.warns⟩
    else recomputeRestartAt env keys pod ⟨h.evicts, [], h.arms, h.warns⟩
  | none => recomputeRestartAt env keys pod noEffects

/-! ## Timer pool (`service.go`, `scheduleEviction`, `stopPendingTimers`,
`Shutdown`) -/

/-- The timer-pool state inside the service: the shutdown flag, the pending
timer map `key → registered delay`, and the in-flight waitgroup counter. -/
structure TimerPool where
  inShutdown : Bool
  pendingTimers : List (String × ℤ)
  inFlight : ℕ
deriving DecidableEq, Repr

/-- Whether a key is present in the pending-timer map. -/
def hasTimerKey (l : List (String × ℤ)) (k : String) : Bool :=
  l.any fun p => p.1 = k

/-- Source `scheduleEviction`: no-op while shutting down; no-op when the key
already has a pending timer; otherwise register one timer with delay
`max(until(fireAt), 0) + jitter` and add one to the in-flight counter.
`jitter` stands for the drawn `rand.Int63n(int64(jitterMax + 1))`, so it
satisfies `0 ≤ jitter ≤ jitterMax`; `now` stands for `time.Now()` so that
`time.Until(fireAt) = fireAt - now`.  The returned flag reports whether a timer was
registered. -/
def scheduleEviction (st : TimerPool) (jitter : ℤ) (ns name : String)
    (fireAt now : ℤ) : TimerPool × Bool :=
  if st.inShutdown then (st, false)
  else
    let key := ns ++ "/" ++ name
    if hasTimerKey st.pendingTimers key then (st, false)
    else
      let delay := max (fireAt - now) 0
      ({ st with
          pendingTimers := (key, delay + jitter) :: st.pendingTimers
          inFlight := st.inFlight + 1 }, true)

/-- Source `stopPendingTimers`: stop every pending timer, decrementing the
in-flight counter for each timer whose `Stop()` succeeded (its callback had
not started), and clear the map.  `stopOk key` reports whether `Stop()`
returns true for that entry. -/
def stopPendingTimers (stopOk : String → Bool) (st : TimerPool) :
    TimerPool :=
  { st with
      pendingTimers := []
      inFlight :=
        st.inFlight - (st.pendingTimers.filter fun p => stopOk p.1).length }

/-- The ordered externally visible steps of `Shutdown`. -/
inductive SdEvent
  | cancelTimers
  | waitLoop
  | waitInFlight
deriving DecidableEq, Repr

/-- The two context-expiry errors `Shutdown` can return. -/
inductive SdErr
  | ctxBeforeLoopExit
  | ctxBeforeDrain
deriving DecidableEq, Repr

/-- Environment of one `Shutdown` call: which timers' `Stop()` succeeds,
whether the reconcile loop's done-channel closes before the shutdown
context expires, and whether the in-flight counter drains before it. -/
structure SdEnv where
  stopOk : String → Bool
  loopExitsBeforeCtx : Bool
  drainBeforeCtx : Bool

/-- Source `Shutdown`: guarded by a compare-and-swap on the shutdown flag (a
second call returns success immediately); then stop all pending timers,
wait for the reconcile loop to exit, and wait for in-flight evictions to
drain, returning a context error if the context expires during either
wait.  The event list records the performed steps in order. -/
def shutdownService (env : SdEnv) (st : TimerPool) :
    TimerPool × Option SdErr × List SdEvent :=
  if st.inShutdown then (st, none, [])
  else
    let st1 := stopPendingTimers env.stopOk { st with inShutdown := true }
    if ¬env.loopExitsBeforeCtx then
      (st1, some .ctxBeforeLoopExit, [.cancelTimers, .waitLoop])
    else if ¬env.drainBeforeCtx then
      (st1, some .ctxBeforeDrain, [.cancelTimers, .waitLoop, .waitInFlight])
    else
      (st1, none, [.cancelTimers, .waitLoop, .waitInFlight])

/-! ## Reconcile pass (`service.go`, `reconcileOnePod` and
`ReconcileCommand`) -/

/-- Source `reconcileOnePod` (without its leading context check, which the loop
model performs): run the scheduled-restart handler when the schedule
annotation is set, then the threshold handler when the threshold annotation
is set, collecting the issued effects. -/
def reconcileOnePod (pq : String → Option ℚ) (keys : Keys)
    (senv : SchedEnv) (mr : Except GoErr PodMetrics) (er : Option GoErr)
    (pod : Pod) : Effects :=
  let schedPart :=
    if (lookupAnnot pod.annots keys.scheduleKey).isSome then
      processScheduledRestart senv keys pod
    else noEffects
  let threshPart : Effects :=
    if (lookupAnnot pod.annots keys.thresholdKey).isSome then
      let r := processPod pq keys pod mr er
      ⟨if r.evictCalled then [(pod.ns, pod.name)] else [], [], [], []⟩
    else noEffects
  schedPart.append threshPart

/-- Environment of one reconcile pass, indexed by the position of the pod
in the listed slice: the scheduled-restart environment, the metrics and
eviction repository responses, and the two context-cancellation
observations (at the top of `reconcileOnePod`, and at the pacing wait
after the pod). -/
structure ReconEnv where
  senv : ℕ → SchedEnv
  mr : ℕ → Except GoErr PodMetrics
  er : ℕ → Option GoErr
  ctxDonePre : ℕ → Bool
  ctxDonePace : ℕ → Bool

/-- The per-pod loop of `ReconcileCommand`: stop at a cancellation observed
at the top of `reconcileOnePod` or at the pacing wait, otherwise process
each pod in order. -/
def reconcileLoop (pq : String → Option ℚ) (keys : Keys) (env : ReconEnv) :
    ℕ → List Pod → Effects
  | _, [] => noEffects
  | i, pod :: rest =>
    if env.ctxDonePre i then noEffects
    else
      let e := reconcileOnePod pq keys (env.senv i) (env.mr i) (env.er i) pod
      if env.ctxDonePace i then e
      else e.append (reconcileLoop pq keys env (i + 1) rest)

/-- Source `ReconcileCommand`: list the pods (returning no effects when the list
call fails) and process them in order. -/
def reconcileCommand (pq : String → Option ℚ) (keys : Keys)
    (env : ReconEnv) (listRes : Except GoErr (List Pod)) : Effects :=
  match listRes with
  | .error _ => noEffects
  | .ok pods => reconcileLoop pq keys env 0 pods

/-! ## Minimum-age eviction guard -/

/-- The result of the guarded eviction entry point: the `(ok, err)` pair,
whether the repository eviction was invoked, the increments of the
`evictionSkippedPodTooYoungTotal{namespace, pod}` counter, and the warnings
logged. -/
structure GuardedEvictRes where
  ok : Bool
  errOut : Option GoErr
  repoEvictCalled : Bool
  skipCounterEvents : List (String × String)
  warns : List String
deriving DecidableEq, Repr

/-- Modelled from the spec: the minimum-age guard of the eviction entry
point (`evictPodCommand` with the `minPodAgeBeforeEviction` field), whose
implementation revision is not among the provided sources — only its
configuration (`config.MinPodAgeBeforeEviction`), its counter
(`metrics.RecordEvictionSkippedPodTooYoung`), its tests and its design
document are.  Spec 4.7: if `minAge > 0` and `now - creationTimestamp <
minAge`, increment `evictionSkippedTooYoungTotal{namespace, pod}`, log a
warning, and return skipped (success, not evicted) without calling the
repository; otherwise call the repository eviction and classify its error
exactly as `evictPodCommand` does. -/
def evictPodGuarded (minAge now : ℤ) (pod : Pod) (er : Option GoErr) :
    GuardedEvictRes :=
  if 0 < minAge ∧ now - pod.createdAt < minAge then
    ⟨false, none, false, [(pod.ns, pod.name)],
      ["pod too young, skipping eviction"]⟩
  else
    let c := evictPodCommand er
    ⟨c.ok, c.errOut, true, [], []⟩

/-- The memory usage reported by a repository metrics response: present
only on success. -/
def metricsUsage (mr : Except GoErr PodMetrics) : Option ℚ :=
  match mr with
  | .ok pm => pm.memoryUsage
  | .error _ => none

/-- Decidable equality of `Except` results, used to evaluate the model on
concrete inputs. -/
instance {α β : Type} [DecidableEq α] [DecidableEq β] :
    DecidableEq (Except α β)
  | .error a, .error b =>
    if h : a = b then .isTrue (by rw [h]) else .isFalse (by simp [h])
  | .error _, .ok _ => .isFalse (by simp)
  | .ok _, .error _ => .isFalse (by simp)
  | .ok a, .ok b =>
    if h : a = b then .isTrue (by rw [h]) else .isFalse (by simp [h])

/-! ## Theorems -/

/-! Bridges between the kernel-computable kit and the field operations. -/

theorem pow2Int_eq (k : ℕ) : pow2Int k = (2 : ℤ) ^ k := by
  simp [pow2Int, Nat.shiftLeft_eq]

theorem qmul_eq (a b : ℚ) : qmul a b = a * b := by
  rw [qmul, Rat.divInt_eq_div]
  push_cast
  rw [← div_mul_div_comm, Rat.num_div_den, Rat.num_div_den]

theorem qdiv_eq (a b : ℚ) : qdiv a b = a / b := by
  rw [qdiv, Rat.divInt_eq_div]
  push_cast
  conv_rhs => rw [← Rat.num_div_den a, ← Rat.num_div_den b]
  rw [div_eq_mul_inv ((a.num : ℚ) / a.den), inv_div, div_mul_div_comm]

theorem qsub_eq (a b : ℚ) : qsub a b = a - b := by
  have had : (a.den : ℚ) ≠ 0 := by
    exact_mod_cast a.den_nz
  have hbd : (b.den : ℚ) ≠ 0 := by
    exact_mod_cast b.den_nz
  rw [qsub, Rat.divInt_eq_div]
  push_cast
  conv_rhs => rw [← Rat.num_div_den a, ← Rat.num_div_den b]
  rw [div_sub_div _ _ had hbd]
  ring_nf

theorem qneg_eq (a : ℚ) : qneg a = -a := by
  rw [qneg, Rat.divInt_eq_div]
  push_cast
  rw [neg_div, Rat.num_div_den]

theorem qabs_eq (a : ℚ) : qabs a = |a| := by
  rw [qabs, Rat.divInt_eq_div]
  conv_rhs => rw [← Rat.num_div_den a]
  rw [abs_div, abs_of_nonneg (by positivity : (0 : ℚ) ≤ (a.den : ℚ))]
  push_cast [Int.cast_natAbs]
  rfl

theorem floorQ_eq (q : ℚ) : floorQ q = ⌊q⌋ := by
  rw [floorQ, Int.fdiv_eq_ediv _ (by exact_mod_cast q.den.zero_le), Rat.floor_def]

theorem intQ_eq (n : ℤ) : intQ n = (n : ℚ) := by
  simp [intQ, Rat.divInt_eq_div]


/-- Helper: the adapter's aggregation fold equals the accumulator plus the
sum of the present usages. -/
theorem toDomainFold (cs : List (Option ℚ)) (a : ℚ) :
    cs.foldl (fun acc c => match c with | none => acc | some u => acc + u) a
      = a + (cs.filterMap id).sum := by
  induction cs generalizing a with
  | nil => simp
  | cons c r ih =>
    cases c with
    | none => simpa using ih a
    | some u =>
      simp only [List.foldl_cons, List.filterMap_cons, id, List.sum_cons, ih]
      ring

/-- C5: the eviction entry point classifies repository errors: a
rate-limited error yields no surfaced error (retry on the next pass), a
not-found error yields `ok = false` with no error, any other error yields a
failure wrapping the cause as its tail, and repository success yields
evicted (`true`, no error).  The first three conjuncts compose with the
adapter's error construction (`adapterEvictErr`), the fourth is the general
classification, and the fifth composes it with an arbitrary non-marker
adapter failure. -/
theorem evictPodCommand_classification :
    evictPodCommand (adapterEvictErr .apiTooMany) = ⟨false, none⟩ ∧
    evictPodCommand (adapterEvictErr .apiNotFound) = ⟨false, none⟩ ∧
    evictPodCommand (adapterEvictErr .ok) = ⟨true, none⟩ ∧
    (∀ e : GoErr, isNotFoundErr e = false → isTooManyRequestsErr e = false →
      evictPodCommand (some e) = ⟨false, some (.stdErr "evict pod" :: e)⟩) ∧
    (∀ msg, evictPodCommand (adapterEvictErr (.apiErr msg)) =
      ⟨false, some [.stdErr "evict pod", .stdErr "evict pod", .stdErr msg]⟩) := by
  refine ⟨by decide, by decide, by decide, ?_, ?_⟩
  · intro e h1 h2
    simp [evictPodCommand, h1, h2]
  · intro msg
    simp [adapterEvictErr, evictPodCommand, isNotFoundErr, isTooManyRequestsErr]

/-- Witness for C5: the general other-error clause at a concrete cause. -/
theorem evictPodCommand_classification_witness :
    evictPodCommand (some [.stdErr "boom"]) =
      ⟨false, some [.stdErr "evict pod", .stdErr "boom"]⟩ :=
  evictPodCommand_classification.2.2.2.1 [.stdErr "boom"] (by decide) (by decide)

/-- C1: when `minPodAgeBeforeEviction > 0`, a target younger than the
minimum age is never evicted: the repository eviction is not invoked, the
`evictionSkippedPodTooYoungTotal{namespace, pod}` counter is incremented
exactly once, one warning is logged, and the call returns skipped
(`ok = false`, no error). -/
theorem minAgeGuard_skips_young (minAge now : ℤ) (pod : Pod)
    (er : Option GoErr) (h1 : 0 < minAge)
    (h2 : now - pod.createdAt < minAge) :
    evictPodGuarded minAge now pod er =
      ⟨false, none, false, [(pod.ns, pod.name)],
        ["pod too young, skipping eviction"]⟩ := by
  simp [evictPodGuarded, h1, h2]

/-- Witness for C1: a pod created 3 time units ago with a minimum age of 5. -/
theorem minAgeGuard_skips_young_witness :
    (0 : ℤ) < 5 ∧ (10 : ℤ) - 7 < 5 ∧
    evictPodGuarded 5 10 ⟨"c", "ns2", [], none, 7⟩ none =
      ⟨false, none, false, [("ns2", "c")],
        ["pod too young, skipping eviction"]⟩ :=
  ⟨by decide, by decide,
    minAgeGuard_skips_young 5 10 ⟨"c", "ns2", [], none, 7⟩ none
      (by decide) (by decide)⟩

/-- C10: the adapter's metrics conversion always produces a present
aggregated memory usage — the sum of the non-nil container usages, starting
from zero — so a pod whose containers are absent or all-nil reports exactly
zero; consequently the core's nil-usage skip branch is unreachable for
metrics coming from this adapter, and empty metrics take the zero-usage
skip path instead. -/
theorem podMetricsUsage_never_nil :
    (∀ cs : List (Option ℚ),
      (toDomainPodMetrics cs).memoryUsage = some ((cs.filterMap id).sum)) ∧
    (∀ cs : List (Option ℚ), (toDomainPodMetrics cs).memoryUsage ≠ none) ∧
    (∀ n : ℕ,
      getPodMemoryUsageOrSkip
          (getPodMetricsQuery (.ok (List.replicate n none))) =
        ⟨0, true, false, ["pod memory usage is zero, skipping"]⟩) ∧
    (∀ cs : List (Option ℚ),
      "pod memory usage is nil, skipping" ∉
        (getPodMemoryUsageOrSkip (getPodMetricsQuery (.ok cs))).warns) := by
  have husage : ∀ cs : List (Option ℚ),
      (toDomainPodMetrics cs).memoryUsage = some ((cs.filterMap id).sum) := by
    intro cs
    simp [toDomainPodMetrics, toDomainFold]
  refine ⟨husage, ?_, ?_, ?_⟩
  · intro cs
    rw [husage cs]
    simp
  · intro n
    have h0 : ((List.replicate n (none : Option ℚ)).filterMap id).sum = 0 := by
      simp
    simp [getPodMetricsQuery, getPodMemoryUsageOrSkip, toDomainPodMetrics,
      toDomainFold, h0]
  · intro cs
    simp only [getPodMetricsQuery, getPodMemoryUsageOrSkip, husage cs]
    rcases eq_or_ne ((cs.filterMap id).sum) 0 with h | h
    · simp [h]
    · simp [h]

/-- Helper: a key reported absent by `hasTimerKey` is not among the map's
keys. -/
theorem not_mem_of_hasTimerKey_false (l : List (String × ℤ)) (k : String)
    (h : hasTimerKey l k = false) : k ∉ l.map Prod.fst := by
  intro hmem
  rcases List.mem_map.mp hmem with ⟨p, hp, rfl⟩
  have : hasTimerKey l p.1 = true := by
    simp only [hasTimerKey, List.any_eq_true]
    exact ⟨p, hp, by simp⟩
  rw [h] at this
  exact Bool.false_ne_true this

/-- C6 counterexample: during shutdown, `scheduleEviction` registers
nothing even though the key has no pending timer, so the claim's
unconditional "otherwise it registers exactly one timer and increments the
in-flight counter" fails on the shutdown guard at the top of the
function. -/
theorem scheduleEviction_shutdown_counterexample :
    hasTimerKey (⟨true, [], 0⟩ : TimerPool).pendingTimers "ns/a" = false ∧
    scheduleEviction ⟨true, [], 0⟩ 0 "ns" "a" 5 3 = (⟨true, [], 0⟩, false) := by
  constructor
  · decide
  · decide

/-- C6 (amended with the shutdown guard): `scheduleEviction` is a no-op
returning `false` when the key already has a pending timer; otherwise,
provided the service is not shutting down, it registers exactly one timer
whose delay is `max(fireAt - now, 0)` plus the drawn jitter (which the
`rand.Int63n(jitterMax + 1)` contract keeps within `[0, jitterMax]`),
increments the in-flight counter by one, and preserves key uniqueness; a
`jitterMax` of zero forces zero jitter. -/
theorem scheduleEviction_arm (st : TimerPool) (jitterMax jitter : ℤ)
    (ns name : String) (fireAt now : ℤ)
    (hj0 : 0 ≤ jitter) (hj1 : jitter ≤ jitterMax) :
    (hasTimerKey st.pendingTimers (ns ++ "/" ++ name) = true →
      scheduleEviction st jitter ns name fireAt now = (st, false)) ∧
    (st.inShutdown = false →
      hasTimerKey st.pendingTimers (ns ++ "/" ++ name) = false →
      scheduleEviction st jitter ns name fireAt now =
        ({ st with
            pendingTimers :=
              (ns ++ "/" ++ name, max (fireAt - now) 0 + jitter)
                :: st.pendingTimers
            inFlight := st.inFlight + 1 }, true) ∧
      max (fireAt - now) 0 ≤ max (fireAt - now) 0 + jitter ∧
      max (fireAt - now) 0 + jitter ≤ max (fireAt - now) 0 + jitterMax ∧
      ((st.pendingTimers.map Prod.fst).Nodup →
        (((ns ++ "/" ++ name, max (fireAt - now) 0 + jitter)
            :: st.pendingTimers).map Prod.fst).Nodup)) ∧
    (jitterMax = 0 → jitter = 0) := by
  refine ⟨?_, ?_, ?_⟩
  · intro hk
    rcases hsd : st.inShutdown with _ | _
    · simp [scheduleEviction, hsd, hk]
    · simp [scheduleEviction, hsd]
  · intro hsd hk
    refine ⟨by simp [scheduleEviction, hsd, hk], by linarith, by linarith, ?_⟩
    intro hnd
    rw [List.map_cons]
    exact List.nodup_cons.mpr ⟨not_mem_of_hasTimerKey_false _ _ hk, hnd⟩
  · intro h0
    omega

/-- Witness for C6: arming a fresh key on a live pool with jitter 4 drawn
under `jitterMax = 7`. -/
theorem scheduleEviction_arm_witness :
    scheduleEviction ⟨false, [("x/y", 3)], 1⟩ 4 "ns" "a" 10 6 =
      (⟨false, [("ns/a", 8), ("x/y", 3)], 2⟩, true) := by
  have h := (scheduleEviction_arm ⟨false, [("x/y", 3)], 1⟩ 7 4 "ns" "a" 10 6
    (by decide) (by decide)).2.1 (by decide) (by decide)
  have h1 := h.1
  rw [h1]
  decide

/-- C7: `Shutdown` is idempotent under its compare-and-swap guard — a call
on a service already shutting down returns success with no side effects,
and any call leaves the flag set so that a subsequent call is such a no-op.
A first call performs, in order, cancellation of all pending timers (the
in-flight counter dropping by the number of timers whose `Stop` succeeded),
a wait for the reconcile loop's done signal, then a wait for the in-flight
counter to drain, and each performed wait returns a context error exactly
when the shutdown context expires first. -/
theorem shutdown_idempotent_ordered (env env2 : SdEnv) (st : TimerPool) :
    (st.inShutdown = true → shutdownService env st = (st, none, [])) ∧
    (st.inShutdown = false →
      (shutdownService env st).1.pendingTimers = [] ∧
      (shutdownService env st).1.inShutdown = true ∧
      (shutdownService env st).1.inFlight =
        st.inFlight -
          (st.pendingTimers.filter fun p => env.stopOk p.1).length ∧
      (env.loopExitsBeforeCtx = false →
        (shutdownService env st).2.1 = some .ctxBeforeLoopExit ∧
        (shutdownService env st).2.2 = [.cancelTimers, .waitLoop]) ∧
      (env.loopExitsBeforeCtx = true →
        (shutdownService env st).2.2 =
          [.cancelTimers, .waitLoop, .waitInFlight] ∧
        (env.drainBeforeCtx = false →
          (shutdownService env st).2.1 = some .ctxBeforeDrain) ∧
        (env.drainBeforeCtx = true →
          (shutdownService env st).2.1 = none))) ∧
    shutdownService env2 (shutdownService env st).1 =
      ((shutdownService env st).1, none, []) := by
  refine ⟨?_, ?_, ?_⟩
  · intro h
    simp [shutdownService, h]
  · intro h
    rcases hl : env.loopExitsBeforeCtx with _ | _ <;>
      rcases hd : env.drainBeforeCtx with _ | _ <;>
        simp [shutdownService, stopPendingTimers, h, hl, hd]
  · rcases hs : st.inShutdown with _ | _ <;>
      rcases hl : env.loopExitsBeforeCtx with _ | _ <;>
        rcases hd : env.drainBeforeCtx with _ | _ <;>
          simp [shutdownService, stopPendingTimers, hs, hl, hd]

/-- Witness for C7: a full first shutdown of a live pool with one stoppable
timer, followed by the conclusion's second-call no-op shape. -/
theorem shutdown_idempotent_ordered_witness :
    ((shutdownService ⟨fun _ => true, true, true⟩
        ⟨false, [("k", 2)], 3⟩).1).pendingTimers = [] ∧
    (shutdownService ⟨fun _ => true, true, true⟩
        ⟨false, [("k", 2)], 3⟩).2.1 = none ∧
    (shutdownService ⟨fun _ => true, true, true⟩
        ⟨false, [("k", 2)], 3⟩).2.2 =
      [.cancelTimers, .waitLoop, .waitInFlight] := by
  have h := shutdown_idempotent_ordered ⟨fun _ => true, true, true⟩
    ⟨fun _ => true, true, true⟩ ⟨false, [("k", 2)], 3⟩
  have h2 := h.2.1 rfl
  exact ⟨h2.1, (h2.2.2.2.2 rfl).2.2 rfl, (h2.2.2.2.2 rfl).1⟩


/-- C8: `NextAfter` gives an inline `CRON_TZ=`/`TZ=` prefix precedence over
the `tz` argument (the result does not depend on `tz` and the spec is
compiled verbatim); without a prefix the `tz` argument is prepended as
`CRON_TZ=<tz>`, and with `tz` also empty the spec is compiled under
`CRON_TZ=UTC`; under the library's contract the returned instant is
strictly after the given time; a spec the library rejects yields that
error. -/
theorem nextAfter_spec {S : Type} (lib : CronLib S) (spec tz tz2 : String)
    (after : ℤ) :
    (hasInlineTZ spec = true →
      nextAfter lib spec tz after = nextAfter lib spec tz2 after ∧
      buildSpec spec tz = spec) ∧
    (hasInlineTZ spec = false → tz ≠ "" →
      buildSpec spec tz = "CRON_TZ=" ++ tz ++ " " ++ spec) ∧
    (hasInlineTZ spec = false →
      buildSpec spec "" = "CRON_TZ=UTC " ++ spec) ∧
    ((∀ s t, t < lib.next s t) → ∀ r,
      nextAfter lib spec tz after = .ok r → after < r) ∧
    (∀ e, lib.parse (buildSpec spec tz) = .error e →
      nextAfter lib spec tz after = .error e) := by
  refine ⟨?_, ?_, ?_, ?_, ?_⟩
  · intro hp
    have hb : ∀ z, buildSpec spec z = spec := by
      intro z
      simp [buildSpec, hp]
    refine ⟨?_, hb tz⟩
    simp [nextAfter, hb]
  · intro hp hz
    simp [buildSpec, hp, hz]
  · intro hp
    simp [buildSpec, hp]
  · intro hlib r hok
    unfold nextAfter at hok
    rcases hpar : lib.parse (buildSpec spec tz) with e | s
    · rw [hpar] at hok
      exact absurd hok (by simp)
    · rw [hpar] at hok
      have : lib.next s after = r := by
        simpa using hok
      rw [← this]
      exact hlib s after
  · intro e he
    simp [nextAfter, he]

/-- Witness for C8: a one-schedule library; the prefixed spec ignores the
`tz` argument and the strictly-after contract moves past `after = 100`. -/
theorem nextAfter_spec_witness :
    nextAfter (⟨fun s => if s = "CRON_TZ=UTC 0 4 * * *" then .ok () else
        .error "bad", fun _ t => t + 1⟩ : CronLib Unit)
      "CRON_TZ=UTC 0 4 * * *" "Europe/Riga" 100 =
    nextAfter (⟨fun s => if s = "CRON_TZ=UTC 0 4 * * *" then .ok () else
        .error "bad", fun _ t => t + 1⟩ : CronLib Unit)
      "CRON_TZ=UTC 0 4 * * *" "" 100 ∧
    (100 : ℤ) < 101 :=
  ⟨((nextAfter_spec (⟨fun s => if s = "CRON_TZ=UTC 0 4 * * *" then .ok ()
      else .error "bad", fun _ t => t + 1⟩ : CronLib Unit)
      "CRON_TZ=UTC 0 4 * * *" "Europe/Riga" "" 100).1 (by decide)).1,
    (nextAfter_spec (⟨fun s => if s = "CRON_TZ=UTC 0 4 * * *" then .ok ()
      else .error "bad", fun _ t => t + 1⟩ : CronLib Unit)
      "CRON_TZ=UTC 0 4 * * *" "Europe/Riga" "" 100).2.2.2.1
      (fun _ t => lt_add_one t) 101 (by rfl)⟩

/-- C4 counterexample: `resource.ParseQuantity` accepts signed quantities
(its grammar is `<signedNumber><suffix>`), so an annotation value of `"-1"`
resolves to the negative threshold `-1`; the code only guards against a
zero threshold (`IsZero`), so with any non-zero usage it calls the eviction
facade even though the resolved threshold is not positive, refuting the
claim's "only if the resolved threshold is positive". -/
theorem processPod_negative_threshold_counterexample :
    (processPod (fun s => if s = "-1" then some (intQ (-1)) else none)
        defaultKeys
        ⟨"a", "default", [(defaultKeys.thresholdKey, "-1")], none, 0⟩
        (.ok ⟨some (intQ 5)⟩) none).evictCalled = true ∧
    ¬(0 < intQ (-1)) := by
  constructor
  · decide
  · decide

/-- C4 (amended: "non-zero" in place of "positive"): the threshold handler
invokes the eviction facade exactly when the threshold resolves to a
non-zero value, the metrics fetch does not report not-found, the reported
usage is present and non-zero, and the usage strictly exceeds the
threshold; in every other case (sentinel, parse error, zero threshold,
not-found or failed metrics, absent or zero usage, usage at or below the
threshold) the facade is not called. -/
theorem processPod_evict_iff (pq : String → Option ℚ) (keys : Keys)
    (pod : Pod) (mr : Except GoErr PodMetrics) (er : Option GoErr) :
    (processPod pq keys pod mr er).evictCalled = true ↔
      ∃ t, resolveMemoryThreshold pq keys pod = .ok t ∧ t ≠ 0 ∧
        (∀ e, mr = .error e → isNotFoundErr e = false) ∧
        ∃ u, metricsUsage mr = some u ∧ u ≠ 0 ∧ t < u := by
  unfold processPod
  rcases hres : resolveMemoryThreshold pq keys pod with te | t
  · rcases te <;> simp [hres]
  · simp only [hres]
    rcases eq_or_ne t 0 with rfl | ht
    · simp
    · rcases mr with e | pm
      · rcases hnf : isNotFoundErr e with _ | _ <;>
          simp [getPodMemoryUsageOrSkip, metricsUsage, hnf, ht]
      · rcases pm with ⟨mu⟩
        rcases mu with _ | u
        · simp [getPodMemoryUsageOrSkip, metricsUsage, ht]
        · rcases eq_or_ne u 0 with rfl | hu
          · simp [getPodMemoryUsageOrSkip, metricsUsage, ht]
          · rcases hlt : decide (t < u) with _ | _
            · have hnlt : ¬ t < u := of_decide_eq_false hlt
              simp [getPodMemoryUsageOrSkip, metricsUsage, ht, hu, hnlt]
            · have hltq : t < u := of_decide_eq_true hlt
              rcases er with _ | e2
              · simp [getPodMemoryUsageOrSkip, metricsUsage, evictPodCommand,
                  ht, hu, hltq, not_lt_of_lt]
              · rcases hnf2 : isNotFoundErr e2 with _ | _ <;>
                  rcases htm : isTooManyRequestsErr e2 with _ | _ <;>
                    simp [getPodMemoryUsageOrSkip, metricsUsage,
                      evictPodCommand, ht, hu, hltq, hnf2, htm]

/-- Witness for C4: with threshold `3`, usage `5` and a successful
repository eviction, the facade is called. -/
theorem processPod_evict_iff_witness :
    (processPod (fun _ => some (intQ 3)) defaultKeys
        ⟨"a", "default", [(defaultKeys.thresholdKey, "3")], none, 0⟩
        (.ok ⟨some (intQ 5)⟩) none).evictCalled = true :=
  (processPod_evict_iff (fun _ => some (intQ 3)) defaultKeys
      ⟨"a", "default", [(defaultKeys.thresholdKey, "3")], none, 0⟩
      (.ok ⟨some (intQ 5)⟩) none).mpr
    ⟨intQ 3, by rfl, by decide, fun e he => by simp at he,
      intQ 5, by rfl, by decide, by decide⟩

/-- C3: for a target whose pending `restart-at` annotation parses as a time
`t ≤ now` — if the target's creation timestamp is before `t` (missed), the
handler calls the eviction facade immediately and the pass writes no new
`restart-at`; if the creation timestamp is at or after `t` (stale), it
falls through, recomputes `NextAfter(schedule, tz, now)`, patches
`restart-at` with the formatted result (given the recompute and the patch
succeed) and requests the timer registration. -/
theorem restartAt_missed_stale (env : SchedEnv) (keys : Keys) (pod : Pod)
    (s : String) (t : ℤ)
    (hk : lookupAnnot pod.annots keys.restartAtKey = some s)
    (hp : env.parseRFC s = some t)
    (hle : t ≤ env.now) :
    (pod.createdAt < t →
      processScheduledRestart env keys pod =
        ⟨[(pod.ns, pod.name)], [], [], []⟩) ∧
    (t ≤ pod.createdAt → ∀ nxt,
      env.next ((lookupAnnot pod.annots keys.scheduleKey).getD "")
        ((lookupAnnot pod.annots keys.tzKey).getD "") env.now = .ok nxt →
      env.patchOk = true →
      processScheduledRestart env keys pod =
        ⟨[], [(pod.ns, pod.name, keys.restartAtKey, env.fmtRFC nxt)],
          [(pod.ns, pod.name, nxt)],
          ["stale restart-at annotation, rescheduling"]⟩) := by
  have hnow : ¬ env.now < t := not_lt.mpr hle
  constructor
  · intro hmiss
    simp [processScheduledRestart, hk, handleExistingRestartAt, hp, hnow,
      hmiss]
  · intro hstale nxt hnext hpatch
    have hnc : ¬ pod.createdAt < t := not_lt.mpr hstale
    simp [processScheduledRestart, hk, handleExistingRestartAt, hp, hnow,
      hnc, recomputeRestartAt, hnext, hpatch]

/-- Witness for C3: a missed restart (`restart-at = 50 ≤ now = 100`,
created at `30 < 50`) evicts immediately with no patch. -/
theorem restartAt_missed_stale_witness :
    processScheduledRestart
        ⟨fun s => if s = "T50" then some 50 else none, fun _ => "x",
          fun _ _ _ => .error "unused", true, none, 100⟩
        defaultKeys
        ⟨"e", "ns", [(defaultKeys.restartAtKey, "T50")], none, 30⟩ =
      ⟨[("ns", "e")], [], [], []⟩ :=
  (restartAt_missed_stale
      ⟨fun s => if s = "T50" then some 50 else none, fun _ => "x",
        fun _ _ _ => .error "unused", true, none, 100⟩
      defaultKeys
      ⟨"e", "ns", [(defaultKeys.restartAtKey, "T50")], none, 30⟩
      "T50" 50 (by rfl) (by rfl) (by decide)).1 (by decide)

/-- Helper for C9: the recompute tail only ever appends a patch whose key
is the configured `restart-at` key. -/
theorem recomputeRestartAt_patch_keys (env : SchedEnv) (keys : Keys)
    (pod : Pod) (acc : Effects) :
    ∀ p ∈ (recomputeRestartAt env keys pod acc).patches,
      p ∈ acc.patches ∨ p.2.2.1 = keys.restartAtKey := by
  unfold recomputeRestartAt
  rcases hn : env.next ((lookupAnnot pod.annots keys.scheduleKey).getD "")
      ((lookupAnnot pod.annots keys.tzKey).getD "") env.now with e | nxt <;>
    simp only [hn]
  · intro p hp
    exact Or.inl hp
  · rcases hpo : env.patchOk with _ | _ <;>
      simp only [hpo, Bool.false_eq_true, if_false, if_true] <;>
      · intro p hp
        rcases List.mem_append.mp hp with h | h
        · exact Or.inl h
        · right
          simp only [List.mem_singleton] at h
          subst h
          rfl

/-- Helper for C9: every patch issued by the scheduled-restart handler
carries the configured `restart-at` key. -/
theorem processScheduledRestart_patch_keys (env : SchedEnv) (keys : Keys)
    (pod : Pod) :
    ∀ p ∈ (processScheduledRestart env keys pod).patches,
      p.2.2.1 = keys.restartAtKey := by
  unfold processScheduledRestart
  rcases hk : lookupAnnot pod.annots keys.restartAtKey with _ | s
  · intro p hp
    rcases recomputeRestartAt_patch_keys env keys pod noEffects p hp with h | h
    · simp [noEffects] at h
    · exact h
  · rcases hh : (handleExistingRestartAt env pod s).handled with _ | _
    · intro p hp
      simp only [hh, Bool.false_eq_true, if_false] at hp
      rcases recomputeRestartAt_patch_keys env keys pod
          ⟨(handleExistingRestartAt env pod s).evicts, [],
            (handleExistingRestartAt env pod s).arms,
            (handleExistingRestartAt env pod s).warns⟩ p hp with h | h
      · simp at h
      · exact h
    · intro p hp
      simp [hh] at hp

/-- Helper for C9: every patch issued while reconciling one pod carries the
configured `restart-at` key. -/
theorem reconcileOnePod_patch_keys (pq : String → Option ℚ) (keys : Keys)
    (senv : SchedEnv) (mr : Except GoErr PodMetrics) (er : Option GoErr)
    (pod : Pod) :
    ∀ p ∈ (reconcileOnePod pq keys senv mr er pod).patches,
      p.2.2.1 = keys.restartAtKey := by
  intro p hp
  unfold reconcileOnePod at hp
  rcases hs : (lookupAnnot pod.annots keys.scheduleKey).isSome with _ | _ <;>
    rcases ht : (lookupAnnot pod.annots keys.thresholdKey).isSome with _ | _ <;>
      simp only [hs, ht, Bool.false_eq_true, if_false, if_true, noEffects,
        Effects.append, List.append_nil, List.nil_append,
        List.not_mem_nil] at hp
  all_goals exact processScheduledRestart_patch_keys senv keys pod p hp

/-- Helper for C9: every patch issued by the per-pod reconcile loop carries
the configured `restart-at` key. -/
theorem reconcileLoop_patch_keys (pq : String → Option ℚ) (keys : Keys)
    (env : ReconEnv) (i : ℕ) (pods : List Pod) :
    ∀ p ∈ (reconcileLoop pq keys env i pods).patches,
      p.2.2.1 = keys.restartAtKey := by
  induction pods generalizing i with
  | nil =>
    intro p hp
    simp [reconcileLoop, noEffects] at hp
  | cons pod rest ih =>
    intro p hp
    rcases hpre : env.ctxDonePre i with _ | _
    · rcases hpace : env.ctxDonePace i with _ | _
      · simp only [reconcileLoop, hpre, hpace, Bool.false_eq_true, if_false,
          Effects.append] at hp
        rcases List.mem_append.mp hp with h | h
        · exact reconcileOnePod_patch_keys pq keys (env.senv i) (env.mr i)
            (env.er i) pod p h
        · exact ih (i + 1) p h
      · simp only [reconcileLoop, hpre, hpace, Bool.false_eq_true, if_false,
          if_true] at hp
        exact reconcileOnePod_patch_keys pq keys (env.senv i) (env.mr i)
          (env.er i) pod p hp
    · simp [reconcileLoop, hpre, noEffects] at hp

/-- C9: across a whole reconcile pass, the only write ever issued against a
target is an annotation patch whose key is the configured `restart-at`
key; and the adapter realizes each such write as a merge-patch document
touching exactly that one annotation. -/
theorem reconcile_patches_only_restartAt (pq : String → Option ℚ)
    (keys : Keys) (env : ReconEnv) (listRes : Except GoErr (List Pod)) :
    (∀ p ∈ (reconcileCommand pq keys env listRes).patches,
      p.2.2.1 = keys.restartAtKey) ∧
    (∀ k v, (setAnnotationPatch k v).length = 1 ∧
      ∀ q ∈ setAnnotationPatch k v, q.1 = k) := by
  constructor
  · rcases listRes with e | pods
    · intro p hp
      simp [reconcileCommand, noEffects] at hp
    · intro p hp
      exact reconcileLoop_patch_keys pq keys env 0 pods p hp
  · intro k v
    refine ⟨by simp [setAnnotationPatch], ?_⟩
    intro q hq
    simp only [setAnnotationPatch, List.mem_singleton] at hq
    subst hq
    rfl

/-- Witness for C9: a one-pod pass that patches; its single patch carries
the `restart-at` key. -/
theorem reconcile_patches_only_restartAt_witness :
    ("ns", "f", defaultKeys.restartAtKey, "T") ∈
      (reconcileCommand (fun _ => none) defaultKeys
        ⟨fun _ => ⟨fun _ => none, fun _ => "T", fun _ _ _ => .ok 240, true,
            none, 210⟩,
          fun _ => .error [.stdErr "down"], fun _ => none,
          fun _ => false, fun _ => false⟩
        (.ok [⟨"f", "ns",
          [(defaultKeys.scheduleKey, "0 4 * * *")], none, 180⟩])).patches ∧
    (("ns", "f", defaultKeys.restartAtKey, "T") :
        String × String × String × String).2.2.1 = defaultKeys.restartAtKey :=
  ⟨by decide, (reconcile_patches_only_restartAt (fun _ => none) defaultKeys
      ⟨fun _ => ⟨fun _ => none, fun _ => "T", fun _ _ _ => .ok 240, true,
          none, 210⟩,
        fun _ => .error [.stdErr "down"], fun _ => none,
        fun _ => false, fun _ => false⟩
      (.ok [⟨"f", "ns",
        [(defaultKeys.scheduleKey, "0 4 * * *")], none, 180⟩])).1
    ("ns", "f", defaultKeys.restartAtKey, "T") (by decide)⟩

set_option maxRecDepth 8000 in
/-- C2 counterexample: for the annotation value `"10%"` on a pod whose
memory limit is `2^60` bytes (the quantity `1Ei`), the resolver returns the
float64-computed `115292150460684704` bytes, while
`floor(limit * p / 100) = 115292150460684697`: the rounding of `10/100` to
a double makes the product exceed the exact value by more than an integer,
so "returns exactly floor(limit * p / 100) bytes" fails. -/
theorem percent_floor_counterexample :
    resolveMemoryThreshold (fun _ => none) defaultKeys
        ⟨"b", "ns1", [(defaultKeys.thresholdKey, "10%")],
          some (Rat.divInt (pow2Int 60) 1), 0⟩ =
      .ok (intQ 115292150460684704) ∧
    ⌊(Rat.divInt (pow2Int 60) 1 : ℚ) * 10 / 100⌋ = 115292150460684697 ∧
    (115292150460684704 : ℤ) ≠ 115292150460684697 := by
  refine ⟨by decide, ?_, by decide⟩
  have hq : (Rat.divInt (pow2Int 60) 1 : ℚ) * 10 / 100 =
      (1152921504606846976 : ℚ) / 10 := by
    rw [Rat.divInt_eq_div, pow2Int_eq]
    norm_num
  rw [hq, Int.floor_eq_iff]
  norm_num

/-- C2 (amended: the percent branch returns the float64 evaluation, not the
exact floor): for every annotation value whose last character is `%`, the
resolver parses the whitespace-trimmed prefix as a decimal number `p`
(float64-rounded) and fails when the parse fails or `p ≤ 0` or `p > 100`;
when the memory limit is absent or zero it returns the
no-limit-for-percent sentinel; otherwise it returns the int64 truncation
of the float64 product `limitFloat * (p / 100)`.  The `decAlphabet`
hypothesis confines the statement to prefixes made of decimal-number
characters, on which the `parseFloatGo` model coincides with Go
`strconv.ParseFloat`. -/
theorem percentThreshold_resolution (pq : String → Option ℚ) (keys : Keys)
    (pod : Pod) (s pfx : String)
    (hk : lookupAnnot pod.annots keys.thresholdKey = some s)
    (hcut : cutSuffix s "%" = (pfx, true))
    (halpha : decAlphabet (trimSpace pfx) = true) :
    (parseFloatGo (trimSpace pfx) = none →
      resolveMemoryThreshold pq keys pod = .error .memoryThresholdParse) ∧
    (∀ p, parseFloatGo (trimSpace pfx) = some p → (p ≤ 0 ∨ 100 < p) →
      resolveMemoryThreshold pq keys pod = .error .memoryThresholdParse) ∧
    (∀ p, parseFloatGo (trimSpace pfx) = some p → 0 < p → p ≤ 100 →
      (pod.memoryLimit = none ∨ pod.memoryLimit = some 0) →
      resolveMemoryThreshold pq keys pod = .error .memoryLimitNotDefined) ∧
    (∀ p L, parseFloatGo (trimSpace pfx) = some p → 0 < p → p ≤ 100 →
      pod.memoryLimit = some L → L ≠ 0 →
      resolveMemoryThreshold pq keys pod =
        .ok (intQ (truncToInt (fmul (floatRound L) (fdiv p 100))))) := by
  have hbase : resolveMemoryThreshold pq keys pod =
      (resolveMemoryThresholdFromPercent (trimSpace pfx)
        pod.memoryLimit).map (fun n => intQ n) := by
    unfold resolveMemoryThreshold
    rw [hk]
    simp [hcut]
  refine ⟨?_, ?_, ?_, ?_⟩
  · intro hparse
    rw [hbase]
    unfold resolveMemoryThresholdFromPercent
    rw [hparse]
    rfl
  · intro p hparse hrange
    rw [hbase]
    unfold resolveMemoryThresholdFromPercent
    rw [hparse]
    simp only [if_pos hrange]
    rfl
  · intro p hparse hpos hle hlim
    have hrange : ¬(p ≤ 0 ∨ 100 < p) := by
      push_neg
      exact ⟨hpos, hle⟩
    rw [hbase]
    unfold resolveMemoryThresholdFromPercent
    rw [hparse]
    simp only [if_neg hrange]
    rcases hlim with h | h <;> rw [h] <;> rfl

  · intro p L hparse hpos hle hlim hL
    have hrange : ¬(p ≤ 0 ∨ 100 < p) := by
      push_neg
      exact ⟨hpos, hle⟩
    rw [hbase]
    unfold resolveMemoryThresholdFromPercent
    rw [hparse]
    simp only [if_neg hrange]
    rw [hlim]
    simp only [if_neg hL]
    rfl

/-- Witness for C2: the value `" 50 %"` (whitespace around the number) on a
`1Gi` limit resolves to `536870912` bytes, half the limit. -/
theorem percentThreshold_resolution_witness :
    resolveMemoryThreshold (fun _ => none) defaultKeys
        ⟨"b", "ns1", [(defaultKeys.thresholdKey, " 50 %")],
          some (Rat.divInt (pow2Int 30) 1), 0⟩ =
      .ok (intQ 536870912) :=
  ((percentThreshold_resolution (fun _ => none) defaultKeys
      ⟨"b", "ns1", [(defaultKeys.thresholdKey, " 50 %")],
        some (Rat.divInt (pow2Int 30) 1), 0⟩
      " 50 %" " 50 " (by rfl) (by decide) (by decide)).2.2.2
    50 (Rat.divInt (pow2Int 30) 1) (by decide) (by decide) (by decide)
    (by rfl) (by decide)).trans
    (congrArg Except.ok (by decide))

/-- Witness for C10: the aggregation at a concrete container list with one
nil usage. -/
theorem podMetricsUsage_never_nil_witness :
    (toDomainPodMetrics [none, some (intQ 7)]).memoryUsage =
      some ((([none, some (intQ 7)] : List (Option ℚ)).filterMap id).sum) :=
  podMetricsUsage_never_nil.1 [none, some (intQ 7)]

end Preoom
